import Mathlib

/-!
Verification of `src/lib/knobdrag.ts` from svelte-dj-knob.

The source converts vertical pointer movement into bounded, stepped value
changes on a reactive value store, with optional pointer-capture and
pointer-lock behaviors.  We embed the numeric logic over `ℚ` (JS number
arithmetic read exactly), the handler state (accumulated raw value, moved
flag, store contents, count of `select()` calls) as an explicit record,
and the DOM listener bookkeeping as a list of (target, event, handler)
triples.
-/

namespace Knob

/-- The numeric fields of the `Params` interface (knobdrag.ts lines 5-12).
`valueStore` is modelled as the `storeValue` field of `KnobState`;
`inputElem` only receives `select()` calls, counted by `selects`. -/
structure Params where
  min : ℚ
  max : ℚ
  step : ℚ
  space : ℚ
deriving DecidableEq

/-- The fields of a `PointerEvent` that `knobMove` reads: `movementY`, and
the two capture conditions tested by `hasCapture` (lines 14-17):
`elem.hasPointerCapture(pointerId)` (`hasCap`) and
`document.pointerLockElement === elem` (`isLockElem`). -/
structure PointerEvent where
  movementY : ℚ
  hasCap : Bool
  isLockElem : Bool
deriving DecidableEq

/-- `hasCapture` (lines 14-17): the element holds capture for the pointer
or is the document's pointer-lock element. -/
def hasCapture (e : PointerEvent) : Bool :=
  e.hasCap || e.isLockElem

/-- The mutable state closed over by `knobdrag`: `rawValue` (line 40,
starts `null`), `moved` (line 50, starts `false`), the value store's
contents, and the number of `inputElem.select()` calls made so far. -/
structure KnobState where
  rawValue : Option ℚ
  moved : Bool
  storeValue : ℚ
  selects : Nat
deriving DecidableEq

/-- The state right after attachment: `rawValue = null`, `moved = false`,
the store holding `v0`, no `select()` call made. -/
def initState (v0 : ℚ) : KnobState :=
  { rawValue := none, moved := false, storeValue := v0, selects := 0 }

/-- `clamp` (lines 143-145): `Math.min(Math.max(a, b), c)`. -/
def clamp (a b c : ℚ) : ℚ :=
  min (max a b) c

/-- JavaScript truncation toward zero, as used by the `%` operator. -/
def jsTrunc (x : ℚ) : ℤ :=
  if 0 ≤ x then ⌊x⌋ else ⌈x⌉

/-- JavaScript's remainder operator `v % s`: the remainder carries the
sign of the dividend, `v % s = v - s * trunc(v / s)`. -/
def jsMod (v s : ℚ) : ℚ :=
  v - s * jsTrunc (v / s)

/-- `floorToStep` (lines 42-47): subtract `v % step`, except that when the
surplus is within `0.000001` of a whole step it is zeroed, to keep the
last step attainable under float error. -/
def floorToStep (step v : ℚ) : ℚ :=
  v - (if step < jsMod v step + 1/1000000 then 0 else jsMod v step)

/-- `scaleMovement` (lines 35-37): divide the drag distance by the
`scaleFactor` captured at attachment. -/
def scaleMovement (scaleFactor distance : ℚ) : ℚ :=
  distance / scaleFactor

/-- `knobMove` (lines 51-66).  When `movementY` is nonzero (JS truthiness)
and the element has capture or lock, the store is updated: `rawValue` is
initialized from the current store value if `null`, shifted by the scaled
movement and clamped to `[min, max]`, and `floorToStep rawValue` becomes
the new store value; `moved` is set. Otherwise nothing happens. -/
def knobMove (p : Params) (scaleFactor : ℚ) (s : KnobState) (e : PointerEvent) : KnobState :=
  if e.movementY ≠ 0 ∧ hasCapture e = true then
    let raw0 := match s.rawValue with
      | none => s.storeValue
      | some r => r
    let raw1 := clamp p.min (raw0 - scaleMovement scaleFactor e.movementY) p.max
    { s with rawValue := some raw1, moved := true, storeValue := floorToStep p.step raw1 }
  else s

/-- `knobRelease` (lines 67-72): call `inputElem.select()` when `moved`
is `false`, then clear `moved`. -/
def knobRelease (s : KnobState) : KnobState :=
  { s with
    moved := false,
    selects := if s.moved = false then s.selects + 1 else s.selects }

/-- The variables the `knobdrag` closure captures besides the mutable
state: the current `params` object and the `scaleFactor` computed once at
attachment (lines 33-34). -/
structure Attachment where
  params : Params
  scaleFactor : ℚ
deriving DecidableEq

/-- Attachment (lines 33-34): `range = max - min`,
`scaleFactor = space / range`, captured once. -/
def attach (p : Params) : Attachment :=
  { params := p, scaleFactor := p.space / (p.max - p.min) }

/-- The returned `update` (lines 81-83): reassigns `params` only; `range`
and `scaleFactor` are not recomputed. -/
def Attachment.update (a : Attachment) (np : Params) : Attachment :=
  { params := np, scaleFactor := a.scaleFactor }

/-- Events the handler state reacts to: a `pointermove` (dispatched to
`knobMove`), a `pointerup` (dispatched to `knobRelease`), or an external
write to the value store by the surrounding UI. -/
inductive Ev where
  | move (e : PointerEvent)
  | up
  | setStore (v : ℚ)
deriving DecidableEq

/-- One event's effect on the handler state. -/
def stepEv (p : Params) (scaleFactor : ℚ) (s : KnobState) : Ev → KnobState
  | Ev.move e => knobMove p scaleFactor s e
  | Ev.up => knobRelease s
  | Ev.setStore v => { s with storeValue := v }

/-- Run a sequence of events from a state. -/
def runEvs (p : Params) (scaleFactor : ℚ) (s : KnobState) (evs : List Ev) : KnobState :=
  evs.foldl (stepEv p scaleFactor) s

/-- The values `knobMove` writes to the store along a sequence of
pointermove events: a write happens exactly when the guard of line 53
holds. -/
def knobWrites (p : Params) (scaleFactor : ℚ) : KnobState → List PointerEvent → List ℚ
  | _, [] => []
  | s, e :: es =>
    if e.movementY ≠ 0 ∧ hasCapture e = true then
      (knobMove p scaleFactor s e).storeValue ::
        knobWrites p scaleFactor (knobMove p scaleFactor s e) es
    else
      knobWrites p scaleFactor (knobMove p scaleFactor s e) es

/-- Boolean step of the `moved` flag for one event, read off the claims'
description: an effective pointermove raises it, a pointerup clears it,
an external store write leaves it alone. -/
def movedStep (b : Bool) : Ev → Bool
  | Ev.move e => b || (decide (e.movementY ≠ 0) && hasCapture e)
  | Ev.up => false
  | Ev.setStore _ => b

/-- `moved` as specified: true exactly when an effective pointermove has
occurred since the most recent pointerup (or since attachment). -/
def movedSpec (evs : List Ev) : Bool :=
  evs.foldl movedStep false

/-! ### DOM listener bookkeeping

`knobdrag` adds and removes listeners on the element and the document.
We record them as (target, event, handler) triples; `addEventListener`
is idempotent per DOM semantics and `removeEventListener` removes the
matching registration. -/

/-- Where a listener is registered. -/
inductive Target where
  | elem
  | doc
deriving DecidableEq

/-- The DOM event names used by knobdrag.ts. -/
inductive DomEvent where
  | pointermove
  | pointerup
  | pointerdown
  | touchmove
  | mousedown
  | mouseup
  | pointerlockchange
deriving DecidableEq

/-- The handler functions of knobdrag.ts. -/
inductive Handler where
  | knobMoveH
  | knobReleaseH
  | pointerDownH
  | preventDefaultH
  | enterLockH
  | exitLockH
  | lockChangeH
  | stopPropagationH
deriving DecidableEq

/-- One listener registration. -/
structure Listener where
  target : Target
  event : DomEvent
  handler : Handler
deriving DecidableEq

/-- DOM `addEventListener`: a no-op when the same (event, handler) pair is
already registered on the target. -/
def addEventListener (L : List Listener) (l : Listener) : List Listener :=
  if l ∈ L then L else L ++ [l]

/-- DOM `removeEventListener`: drops the matching registration (a no-op
when absent). -/
def removeEventListener (L : List Listener) (l : Listener) : List Listener :=
  L.filter (fun x => x != l)

def pcListener1 : Listener := ⟨Target.elem, DomEvent.pointerdown, Handler.pointerDownH⟩
def pcListener2 : Listener := ⟨Target.elem, DomEvent.touchmove, Handler.preventDefaultH⟩
def plListener1 : Listener := ⟨Target.elem, DomEvent.mousedown, Handler.enterLockH⟩
def plListener2 : Listener := ⟨Target.elem, DomEvent.mouseup, Handler.exitLockH⟩
def plListener3 : Listener := ⟨Target.doc, DomEvent.pointerlockchange, Handler.lockChangeH⟩
def moveListener : Listener := ⟨Target.elem, DomEvent.pointermove, Handler.knobMoveH⟩
def upListener : Listener := ⟨Target.elem, DomEvent.pointerup, Handler.knobReleaseH⟩

/-- The three listeners `pointerlock` installs (lines 115-117). -/
def lockListeners : List Listener := [plListener1, plListener2, plListener3]

/-- `pointercapture` attachment (lines 132-133). -/
def pointercaptureAttach (L : List Listener) : List Listener :=
  addEventListener (addEventListener L pcListener1) pcListener2

/-- `pointercapture().destroy` (lines 136-139). -/
def pointercaptureDestroy (L : List Listener) : List Listener :=
  removeEventListener (removeEventListener L pcListener1) pcListener2

/-- `pointerlock` attachment (lines 115-117). -/
def pointerlockAttach (L : List Listener) : List Listener :=
  addEventListener (addEventListener (addEventListener L plListener1) plListener2) plListener3

/-- `pointerlock().destroy` (lines 119-123). -/
def pointerlockDestroy (L : List Listener) : List Listener :=
  removeEventListener (removeEventListener (removeEventListener L plListener1) plListener2)
    plListener3

/-- The `actions` map's pointerlock slot together with the listener sets. -/
structure KnobActions where
  hasPointerlock : Bool
  listeners : List Listener
deriving DecidableEq

/-- One notification of the options store (lines 22-29): destroy the
previous pointerlock handlers if any, then install fresh ones when
`lockCursor` is set, else delete the map entry. -/
def optionsNotify (a : KnobActions) (lockCursor : Bool) : KnobActions :=
  let L := if a.hasPointerlock then pointerlockDestroy a.listeners else a.listeners
  if lockCursor then
    { hasPointerlock := true, listeners := pointerlockAttach L }
  else
    { hasPointerlock := false, listeners := L }

/-- Listener effect of attaching `knobdrag` (lines 19-29 and 73-74):
`pointercapture` first, then the immediate options notification (which
installs `pointerlock` iff `lockCursor`), then the element's
`pointermove`/`pointerup` handlers. -/
def knobdragAttach (lockCursor : Bool) (L : List Listener) : List Listener :=
  let L1 := pointercaptureAttach L
  let L2 := if lockCursor then pointerlockAttach L1 else L1
  let L3 := addEventListener L2 moveListener
  addEventListener L3 upListener

/-- Listener effect of the returned `destroy` (lines 76-80): destroy each
action, then remove `("pointermove", knobMove)` and — exactly as the
source has it on line 79 — `("pointerup", knobMove)`. -/
def knobdragDestroy (hasLock : Bool) (L : List Listener) : List Listener :=
  let L1 := pointercaptureDestroy L
  let L2 := if hasLock then pointerlockDestroy L1 else L1
  let L3 := removeEventListener L2 moveListener
  removeEventListener L3 ⟨Target.elem, DomEvent.pointerup, Handler.knobMoveH⟩

/-! ### Basic lemmas about the embedded operations -/

lemma knobMove_effective (p : Params) (sf : ℚ) (s : KnobState) (e : PointerEvent)
    (h : e.movementY ≠ 0 ∧ hasCapture e = true) :
    knobMove p sf s e =
      { s with
        rawValue :=
          some (clamp p.min (s.rawValue.getD s.storeValue - scaleMovement sf e.movementY) p.max),
        moved := true,
        storeValue := floorToStep p.step
          (clamp p.min (s.rawValue.getD s.storeValue - scaleMovement sf e.movementY) p.max) } := by
  rcases s with ⟨rv, mv, sv, sel⟩
  cases rv <;> · unfold knobMove; rw [if_pos h]; rfl

lemma knobMove_ineffective (p : Params) (sf : ℚ) (s : KnobState) (e : PointerEvent)
    (h : ¬ (e.movementY ≠ 0 ∧ hasCapture e = true)) :
    knobMove p sf s e = s := by
  unfold knobMove
  rw [if_neg h]

lemma clamp_mem (a b c : ℚ) (h : a ≤ c) : a ≤ clamp a b c ∧ clamp a b c ≤ c :=
  ⟨le_min (le_max_left a b) h, min_le_right _ _⟩

lemma jsMod_bounds_nonneg (v s : ℚ) (hs : 0 < s) (hv : 0 ≤ v) :
    0 ≤ jsMod v s ∧ jsMod v s < s := by
  have hvs : 0 ≤ v / s := div_nonneg hv hs.le
  have key : s * (v / s) = v := by field_simp
  have h1 : ((⌊v / s⌋ : ℤ) : ℚ) ≤ v / s := Int.floor_le _
  have h2 : v / s < (⌊v / s⌋ : ℚ) + 1 := Int.lt_floor_add_one _
  have ha : s * ((⌊v / s⌋ : ℤ) : ℚ) ≤ s * (v / s) := mul_le_mul_of_nonneg_left h1 hs.le
  have hb : s * (v / s) < s * (((⌊v / s⌋ : ℤ) : ℚ) + 1) := (mul_lt_mul_left hs).mpr h2
  rw [mul_add, mul_one] at hb
  unfold jsMod jsTrunc
  rw [if_pos hvs]
  constructor <;> linarith

lemma jsMod_bounds_neg (v s : ℚ) (hs : 0 < s) (hv : v < 0) :
    -s < jsMod v s ∧ jsMod v s ≤ 0 := by
  have hvs : ¬ 0 ≤ v / s := not_le.mpr (div_neg_of_neg_of_pos hv hs)
  have key : s * (v / s) = v := by field_simp
  have h1 : v / s ≤ ((⌈v / s⌉ : ℤ) : ℚ) := Int.le_ceil _
  have h2 : ((⌈v / s⌉ : ℤ) : ℚ) < v / s + 1 := Int.ceil_lt_add_one _
  have ha : s * (v / s) ≤ s * ((⌈v / s⌉ : ℤ) : ℚ) := mul_le_mul_of_nonneg_left h1 hs.le
  have hb : s * ((⌈v / s⌉ : ℤ) : ℚ) < s * (v / s + 1) := (mul_lt_mul_left hs).mpr h2
  rw [mul_add, mul_one] at hb
  unfold jsMod jsTrunc
  rw [if_neg hvs]
  constructor <;> linarith

lemma floorToStep_bounds (st v : ℚ) (hst : 0 < st) :
    v - st < floorToStep st v ∧ floorToStep st v < v + st := by
  by_cases hc : st < jsMod v st + 1/1000000
  · simp only [floorToStep, if_pos hc]
    constructor <;> linarith
  · simp only [floorToStep, if_neg hc]
    rcases le_or_lt 0 v with hv | hv
    · have h := jsMod_bounds_nonneg v st hst hv
      constructor <;> linarith [h.1, h.2]
    · have h := jsMod_bounds_neg v st hst hv
      constructor <;> linarith [h.1, h.2]

/-- The raw value, when set, lies in `[min, max]`. -/
def rawInRange (p : Params) (s : KnobState) : Prop :=
  ∀ r, s.rawValue = some r → p.min ≤ r ∧ r ≤ p.max

lemma knobMove_rawInRange (p : Params) (sf : ℚ) (s : KnobState) (e : PointerEvent)
    (hmm : p.min ≤ p.max) (hs : rawInRange p s) : rawInRange p (knobMove p sf s e) := by
  by_cases h : e.movementY ≠ 0 ∧ hasCapture e = true
  · rw [knobMove_effective p sf s e h]
    intro r hr
    have hr' : clamp p.min (s.rawValue.getD s.storeValue - scaleMovement sf e.movementY) p.max
        = r := by
      simpa using hr
    rw [← hr']
    exact clamp_mem _ _ _ hmm
  · rw [knobMove_ineffective p sf s e h]
    exact hs

lemma knobWrites_bounded_aux (p : Params) (sf : ℚ) (hmm : p.min ≤ p.max)
    (hstep : 0 < p.step) :
    ∀ (evs : List PointerEvent) (s : KnobState), rawInRange p s →
      ∀ w ∈ knobWrites p sf s evs, p.min - p.step < w ∧ w < p.max + p.step := by
  intro evs
  induction evs with
  | nil =>
    intro s _ w hw
    simp [knobWrites] at hw
  | cons e es ih =>
    intro s hs w hw
    have hinv := knobMove_rawInRange p sf s e hmm hs
    by_cases h : e.movementY ≠ 0 ∧ hasCapture e = true
    · rw [knobWrites, if_pos h, List.mem_cons] at hw
      rcases hw with hw | hw
      · subst hw
        rw [knobMove_effective p sf s e h]
        have hc := clamp_mem p.min (s.rawValue.getD s.storeValue - scaleMovement sf e.movementY)
          p.max hmm
        have hf := floorToStep_bounds p.step
          (clamp p.min (s.rawValue.getD s.storeValue - scaleMovement sf e.movementY) p.max) hstep
        constructor <;> · simp only []; linarith [hc.1, hc.2, hf.1, hf.2]
      · exact ih (knobMove p sf s e) hinv w hw
    · rw [knobWrites, if_neg h] at hw
      exact ih (knobMove p sf s e) hinv w hw

/-! ### Lemmas about `moved` and listeners -/

lemma stepEv_moved (p : Params) (sf : ℚ) (s : KnobState) (ev : Ev) :
    (stepEv p sf s ev).moved = movedStep s.moved ev := by
  cases ev with
  | move e =>
    by_cases h : e.movementY ≠ 0 ∧ hasCapture e = true
    · have hd : decide (e.movementY ≠ 0) = true := decide_eq_true h.1
      show (knobMove p sf s e).moved = _
      rw [knobMove_effective p sf s e h]
      simp [movedStep, hd, h.2]
    · show (knobMove p sf s e).moved = _
      rw [knobMove_ineffective p sf s e h]
      by_cases hm : e.movementY = 0
      · simp [movedStep, hm]
      · have hcap : hasCapture e = false := by
          cases hcap2 : hasCapture e
          · rfl
          · exact absurd ⟨hm, hcap2⟩ h
        simp [movedStep, hcap]
  | up => simp [stepEv, knobRelease, movedStep]
  | setStore v => simp [stepEv, movedStep]

lemma runEvs_moved (p : Params) (sf : ℚ) (evs : List Ev) :
    ∀ s : KnobState, (runEvs p sf s evs).moved = evs.foldl movedStep s.moved := by
  induction evs with
  | nil => intro s; rfl
  | cons ev evs ih =>
    intro s
    show (runEvs p sf (stepEv p sf s ev) evs).moved = evs.foldl movedStep (movedStep s.moved ev)
    rw [ih, stepEv_moved]

lemma mem_addEventListener (L : List Listener) (l x : Listener) :
    x ∈ addEventListener L l ↔ x ∈ L ∨ x = l := by
  by_cases h : l ∈ L
  · simp only [addEventListener, if_pos h]
    constructor
    · exact Or.inl
    · rintro (hx | rfl)
      · exact hx
      · exact h
  · simp only [addEventListener, if_neg h, List.mem_append, List.mem_singleton]

lemma mem_removeEventListener (L : List Listener) (l x : Listener) :
    x ∈ removeEventListener L l ↔ x ∈ L ∧ x ≠ l := by
  simp [removeEventListener, List.mem_filter, bne_iff_ne]

/-- `m` is the greatest multiple of `st` that is at most `v` — the reading
of "floorToStep" in the specification. -/
def isGreatestStepMultipleLE (st v m : ℚ) : Prop :=
  (∃ k : ℤ, m = k * st) ∧ m ≤ v ∧ ∀ m', (∃ k : ℤ, m' = k * st) → m' ≤ v → m' ≤ m

/-- C1 counterexample: with min = 1/2, max = 1, step = 1, space = 700
(min ≤ max, step > 0), one effective pointermove with movementY = -280 from
store value 1/2 makes knobMove write 0 to the store, and 0 is below min. -/
theorem claim_C1_counterexample :
    ((⟨1/2, 1, 1, 700⟩ : Params).min ≤ (⟨1/2, 1, 1, 700⟩ : Params).max ∧
      0 < (⟨1/2, 1, 1, 700⟩ : Params).step) ∧
    knobWrites ⟨1/2, 1, 1, 700⟩ ((attach ⟨1/2, 1, 1, 700⟩).scaleFactor) (initState (1/2))
      [⟨-280, true, false⟩] = [0] ∧
    ¬ ((⟨1/2, 1, 1, 700⟩ : Params).min ≤ 0) := by
  refine ⟨⟨by norm_num, by norm_num⟩, ?_, by norm_num⟩
  norm_num [knobWrites, knobMove, attach, initState, hasCapture, clamp, scaleMovement,
    floorToStep, jsMod, jsTrunc]

/-- C1 (amended): for every attachment whose params satisfy min ≤ max and
step > 0 and every pointermove sequence from attachment, each value that
knobMove writes to the store lies strictly between min - step and
max + step: the clamped raw value stays in [min, max], and flooring to a
step multiple moves it by less than one step. -/
theorem claim_C1_writes_bounded (p : Params) (sf v0 : ℚ) (evs : List PointerEvent)
    (hmm : p.min ≤ p.max) (hstep : 0 < p.step) :
    ∀ w ∈ knobWrites p sf (initState v0) evs, p.min - p.step < w ∧ w < p.max + p.step := by
  apply knobWrites_bounded_aux p sf hmm hstep evs (initState v0)
  intro r hr
  simp [initState] at hr

/-- Witness for C1: the amended bound evaluated at a one-move drag. -/
theorem claim_C1_witness :
    (⟨0, 1, 1, 1⟩ : Params).min - (⟨0, 1, 1, 1⟩ : Params).step < 1 ∧
      (1 : ℚ) < (⟨0, 1, 1, 1⟩ : Params).max + (⟨0, 1, 1, 1⟩ : Params).step :=
  claim_C1_writes_bounded ⟨0, 1, 1, 1⟩ 1 0 [⟨-1, true, false⟩] (by norm_num) (by norm_num) 1
    (by norm_num [knobWrites, knobMove, initState, hasCapture, clamp, scaleMovement,
      floorToStep, jsMod, jsTrunc])

/-- C2 counterexample: at step 1 and v = -1/2, floorToStep returns 0, which
is not the largest multiple of the step that is ≤ v (it is not ≤ v at
all): the JS remainder carries the dividend's sign, so floorToStep rounds
negative values toward zero. -/
theorem claim_C2_counterexample :
    floorToStep 1 (-1/2) = 0 ∧
      ¬ isGreatestStepMultipleLE 1 (-1/2) (floorToStep 1 (-1/2)) := by
  have hneg : ¬ (0 : ℚ) ≤ -1/2 / 1 := by norm_num
  have hmod : jsMod (-1/2) 1 = -1/2 := by
    unfold jsMod jsTrunc
    rw [if_neg hneg]
    norm_num
  have h0 : floorToStep 1 (-1/2) = 0 := by
    simp only [floorToStep, hmod]
    rw [if_neg (by norm_num : ¬ (1 : ℚ) < -1/2 + 1/1000000)]
    norm_num
  refine ⟨h0, fun hgl => ?_⟩
  have hle := hgl.2.1
  rw [h0] at hle
  norm_num at hle

/-- C2 (amended): floorToStep(v) = v - (v % step) with JS remainder
semantics, and for v ≥ 0 outside the epsilon window (that is, when
(v % step) + 0.000001 ≤ step) it is the largest multiple of step that is
≤ v; for v < 0 the remainder carries the dividend's sign so floorToStep
rounds toward zero instead, and inside the epsilon window it returns v. -/
theorem claim_C2_floorToStep_greatest (st v : ℚ) (hst : 0 < st) (hv : 0 ≤ v)
    (heps : jsMod v st + 1/1000000 ≤ st) :
    floorToStep st v = v - jsMod v st ∧
      isGreatestStepMultipleLE st v (floorToStep st v) := by
  have hne : ¬ st < jsMod v st + 1/1000000 := not_lt.mpr heps
  have heq : floorToStep st v = v - jsMod v st := by
    simp only [floorToStep, if_neg hne]
  have hvs : 0 ≤ v / st := div_nonneg hv hst.le
  have hfl : v - jsMod v st = ((⌊v / st⌋ : ℤ) : ℚ) * st := by
    unfold jsMod jsTrunc
    rw [if_pos hvs]
    ring
  have hmodpos := jsMod_bounds_nonneg v st hst hv
  refine ⟨heq, ⟨⌊v / st⌋, by rw [heq, hfl]⟩, by rw [heq]; linarith [hmodpos.1], ?_⟩
  rintro m' ⟨k', rfl⟩ hm'le
  have hk' : (k' : ℚ) ≤ v / st := by
    rw [le_div_iff₀ hst]
    exact hm'le
  have hk2 : k' ≤ ⌊v / st⌋ := Int.le_floor.mpr hk'
  rw [heq, hfl]
  exact mul_le_mul_of_nonneg_right (by exact_mod_cast hk2) hst.le

/-- Witness for C2: the amended statement evaluated at step 1, v = 1/2. -/
theorem claim_C2_witness :
    floorToStep 1 (1/2) = 1/2 - jsMod (1/2) 1 ∧
      isGreatestStepMultipleLE 1 (1/2) (floorToStep 1 (1/2)) :=
  claim_C2_floorToStep_greatest 1 (1/2) (by norm_num) (by norm_num)
    (by norm_num [jsMod, jsTrunc])

/-- C3 (code bug): attaching with lockCursor off and then destroying does
not restore the empty listener set: line 79 removes ("pointerup",
knobMove), a pair that was never added, instead of ("pointerup",
knobRelease), so the knobRelease pointerup listener survives destroy. -/
theorem claim_C3_destroy_not_roundtrip :
    knobdragDestroy false (knobdragAttach false []) = [upListener] ∧
    knobdragDestroy false (knobdragAttach false []) ≠ ([] : List Listener) := by
  constructor
  · decide
  · decide

/-- C4: the accumulated raw value is null at attachment, and on an
effective move knobMove sets it to clamp(min, r0 - movementY * (max - min)
/ space, max), where r0 is the previous raw value, or the store's current
value on the first effective move; the scale factor comes from attachment. -/
theorem claim_C4_rawValue_accumulation (p : Params) (s : KnobState) (e : PointerEvent) (v0 : ℚ)
    (heff : e.movementY ≠ 0 ∧ hasCapture e = true) :
    (initState v0).rawValue = none ∧
    (knobMove p (attach p).scaleFactor s e).rawValue =
      some (clamp p.min
        (s.rawValue.getD s.storeValue - e.movementY * (p.max - p.min) / p.space) p.max) := by
  have hsm : scaleMovement (attach p).scaleFactor e.movementY
      = e.movementY * (p.max - p.min) / p.space := by
    simp only [scaleMovement, attach]
    rw [div_div_eq_mul_div]
  refine ⟨rfl, ?_⟩
  simp only [knobMove_effective p ((attach p).scaleFactor) s e heff, hsm]

/-- Witness for C4: one effective move from a fresh attachment. -/
theorem claim_C4_witness :
    (initState 0).rawValue = none ∧
    (knobMove ⟨0, 1, 1, 1⟩ ((attach ⟨0, 1, 1, 1⟩).scaleFactor) (initState 0)
        ⟨-1, true, false⟩).rawValue =
      some (clamp (⟨0, 1, 1, 1⟩ : Params).min
        ((initState 0).rawValue.getD (initState 0).storeValue -
          (-1) * ((⟨0, 1, 1, 1⟩ : Params).max - (⟨0, 1, 1, 1⟩ : Params).min) /
            (⟨0, 1, 1, 1⟩ : Params).space)
        (⟨0, 1, 1, 1⟩ : Params).max) :=
  claim_C4_rawValue_accumulation ⟨0, 1, 1, 1⟩ (initState 0) ⟨-1, true, false⟩ 0
    ⟨by norm_num, rfl⟩

/-- C5: a pointermove with movementY = 0, or without pointer capture and
without pointer lock, changes nothing: knobMove returns the state
unchanged (store, raw value and moved flag included). -/
theorem claim_C5_ineffective_noop (p : Params) (sf : ℚ) (s : KnobState) (e : PointerEvent)
    (h : e.movementY = 0 ∨ hasCapture e = false) :
    knobMove p sf s e = s := by
  apply knobMove_ineffective
  rintro ⟨hm, hc⟩
  rcases h with h | h
  · exact hm h
  · rw [h] at hc
    exact Bool.false_ne_true hc

/-- Witness for C5: a zero-movement event leaves the initial state alone. -/
theorem claim_C5_witness :
    knobMove ⟨0, 1, 1, 1⟩ 1 (initState 0) ⟨0, true, false⟩ = initState 0 :=
  claim_C5_ineffective_noop ⟨0, 1, 1, 1⟩ 1 (initState 0) ⟨0, true, false⟩ (Or.inl rfl)

/-- C6: after an options notification the actions map holds the
pointerlock entry iff the notified lockCursor flag is set, and the
pointer-lock listeners are installed iff that flag is set (the previous
handlers having been destroyed first); the hypothesis is the reachable-
state invariant that the listeners are absent while the entry is. -/
theorem claim_C6_pointerlock_iff_lockCursor (a : KnobActions) (lc : Bool)
    (hinv : a.hasPointerlock = false → ∀ l ∈ lockListeners, l ∉ a.listeners) :
    (optionsNotify a lc).hasPointerlock = lc ∧
    ∀ l ∈ lockListeners, (l ∈ (optionsNotify a lc).listeners ↔ lc = true) := by
  have hclear : ∀ l ∈ lockListeners,
      l ∉ (if a.hasPointerlock then pointerlockDestroy a.listeners else a.listeners) := by
    intro l hl
    by_cases hp : a.hasPointerlock
    · rw [if_pos hp]
      simp only [pointerlockDestroy, mem_removeEventListener]
      fin_cases hl <;> simp
    · rw [if_neg hp]
      exact hinv (Bool.not_eq_true _ ▸ hp) l hl
  constructor
  · cases lc <;> rfl
  · intro l hl
    cases lc
    · have : l ∉ (optionsNotify a false).listeners := hclear l hl
      exact iff_of_false this (by simp)
    · have : l ∈ (optionsNotify a true).listeners := by
        show l ∈ pointerlockAttach _
        simp only [pointerlockAttach, mem_addEventListener]
        fin_cases hl <;> simp [plListener1, plListener2, plListener3]
      exact iff_of_true this rfl

/-- Witness for C6: notifying lockCursor = true from the initial actions
state installs the pointerlock entry and its listeners. -/
theorem claim_C6_witness :
    (optionsNotify ⟨false, []⟩ true).hasPointerlock = true ∧
    ∀ l ∈ lockListeners, (l ∈ (optionsNotify ⟨false, []⟩ true).listeners ↔ true = true) :=
  claim_C6_pointerlock_iff_lockCursor ⟨false, []⟩ true (fun _ l _ => by simp)

/-- C7: the moved flag starts false, knobRelease always leaves it false,
and along any event sequence from attachment it is true exactly when an
effective pointermove has occurred since the most recent pointerup (or
since attachment, before any pointerup). -/
theorem claim_C7_moved_iff_effective_since_up (p : Params) (sf v0 : ℚ) (evs : List Ev) :
    (∀ s : KnobState, (knobRelease s).moved = false) ∧
    (initState v0).moved = false ∧
    (runEvs p sf (initState v0) evs).moved = movedSpec evs := by
  refine ⟨fun s => rfl, rfl, ?_⟩
  rw [runEvs_moved]
  rfl

/-- C8: update(newParams) swaps in the new params for clamping, stepping
and everything else, but scaleFactor keeps the value computed at
attachment from the original space and range, so an effective move still
divides by original space / (original max - original min). -/
theorem claim_C8_update_keeps_scaleFactor (p np : Params) (s : KnobState) (e : PointerEvent)
    (r : ℚ) (hr : s.rawValue = some r) (heff : e.movementY ≠ 0 ∧ hasCapture e = true) :
    (Attachment.update (attach p) np).params = np ∧
    (Attachment.update (attach p) np).scaleFactor = p.space / (p.max - p.min) ∧
    (knobMove (Attachment.update (attach p) np).params
        (Attachment.update (attach p) np).scaleFactor s e).storeValue =
      floorToStep np.step
        (clamp np.min (r - e.movementY * (p.max - p.min) / p.space) np.max) := by
  have hsm : scaleMovement (p.space / (p.max - p.min)) e.movementY
      = e.movementY * (p.max - p.min) / p.space := by
    simp only [scaleMovement]
    rw [div_div_eq_mul_div]
  refine ⟨rfl, rfl, ?_⟩
  have hupd : (Attachment.update (attach p) np).params = np := rfl
  have hsf : (Attachment.update (attach p) np).scaleFactor = p.space / (p.max - p.min) := rfl
  rw [hupd, hsf, knobMove_effective np (p.space / (p.max - p.min)) s e heff]
  simp only [hr, Option.getD_some, hsm]

/-- Witness for C8: update to params with doubled range; the write still
uses the original scale. -/
theorem claim_C8_witness :
    (Attachment.update (attach ⟨0, 1, 1, 1⟩) ⟨0, 2, 1, 4⟩).params = ⟨0, 2, 1, 4⟩ ∧
    (Attachment.update (attach ⟨0, 1, 1, 1⟩) ⟨0, 2, 1, 4⟩).scaleFactor =
      (⟨0, 1, 1, 1⟩ : Params).space / ((⟨0, 1, 1, 1⟩ : Params).max - (⟨0, 1, 1, 1⟩ : Params).min) ∧
    (knobMove (Attachment.update (attach ⟨0, 1, 1, 1⟩) ⟨0, 2, 1, 4⟩).params
        (Attachment.update (attach ⟨0, 1, 1, 1⟩) ⟨0, 2, 1, 4⟩).scaleFactor
        ⟨some 0, false, 0, 0⟩ ⟨-1, true, false⟩).storeValue =
      floorToStep (⟨0, 2, 1, 4⟩ : Params).step
        (clamp (⟨0, 2, 1, 4⟩ : Params).min
          (0 - (-1) * ((⟨0, 1, 1, 1⟩ : Params).max - (⟨0, 1, 1, 1⟩ : Params).min) /
            (⟨0, 1, 1, 1⟩ : Params).space)
          (⟨0, 2, 1, 4⟩ : Params).max) :=
  claim_C8_update_keeps_scaleFactor ⟨0, 1, 1, 1⟩ ⟨0, 2, 1, 4⟩ ⟨some 0, false, 0, 0⟩
    ⟨-1, true, false⟩ 0 rfl ⟨by norm_num, rfl⟩

/-- C9: once the raw value is set it never becomes null again (pointerup
and external store writes keep it, every move keeps it set), each further
effective move accumulates from the previous clamped raw value, and the
store's contents play no role in the outcome of an effective move. -/
theorem claim_C9_rawValue_persists (p : Params) (sf : ℚ) (s : KnobState) (r : ℚ)
    (hr : s.rawValue = some r) :
    (∀ ev : Ev, (stepEv p sf s ev).rawValue ≠ none) ∧
    (∀ e : PointerEvent, e.movementY ≠ 0 ∧ hasCapture e = true →
      (knobMove p sf s e).rawValue =
        some (clamp p.min (r - scaleMovement sf e.movementY) p.max)) ∧
    (∀ (v' : ℚ) (e : PointerEvent), e.movementY ≠ 0 ∧ hasCapture e = true →
      (knobMove p sf { s with storeValue := v' } e).rawValue = (knobMove p sf s e).rawValue ∧
      (knobMove p sf { s with storeValue := v' } e).storeValue =
        (knobMove p sf s e).storeValue) := by
  refine ⟨?_, ?_, ?_⟩
  · intro ev
    cases ev with
    | move e =>
      by_cases h : e.movementY ≠ 0 ∧ hasCapture e = true
      · show (knobMove p sf s e).rawValue ≠ none
        rw [knobMove_effective p sf s e h]
        simp
      · show (knobMove p sf s e).rawValue ≠ none
        rw [knobMove_ineffective p sf s e h, hr]
        simp
    | up => simp [stepEv, knobRelease, hr]
    | setStore v => simp [stepEv, hr]
  · intro e he
    rw [knobMove_effective p sf s e he]
    simp [hr]
  · intro v' e he
    rw [knobMove_effective p sf _ e he, knobMove_effective p sf s e he]
    simp [hr]

/-- Witness for C9: a state mid-drag with raw value 1/2. -/
theorem claim_C9_witness :
    (∀ ev : Ev,
      (stepEv ⟨0, 1, 1, 1⟩ 1 ⟨some (1/2), true, 0, 0⟩ ev).rawValue ≠ none) ∧
    (∀ e : PointerEvent, e.movementY ≠ 0 ∧ hasCapture e = true →
      (knobMove ⟨0, 1, 1, 1⟩ 1 ⟨some (1/2), true, 0, 0⟩ e).rawValue =
        some (clamp (⟨0, 1, 1, 1⟩ : Params).min (1/2 - scaleMovement 1 e.movementY)
          (⟨0, 1, 1, 1⟩ : Params).max)) ∧
    (∀ (v' : ℚ) (e : PointerEvent), e.movementY ≠ 0 ∧ hasCapture e = true →
      (knobMove ⟨0, 1, 1, 1⟩ 1 ⟨some (1/2), true, v', 0⟩ e).rawValue =
        (knobMove ⟨0, 1, 1, 1⟩ 1 ⟨some (1/2), true, 0, 0⟩ e).rawValue ∧
      (knobMove ⟨0, 1, 1, 1⟩ 1 ⟨some (1/2), true, v', 0⟩ e).storeValue =
        (knobMove ⟨0, 1, 1, 1⟩ 1 ⟨some (1/2), true, 0, 0⟩ e).storeValue) :=
  claim_C9_rawValue_persists ⟨0, 1, 1, 1⟩ 1 ⟨some (1/2), true, 0, 0⟩ (1/2) rfl

/-- C10: knobRelease calls select() exactly when the moved flag is false,
clears the flag, and changes nothing else (raw value and store kept). -/
theorem claim_C10_release_selects_iff_not_moved (s : KnobState) :
    (knobRelease s).selects = (if s.moved = false then s.selects + 1 else s.selects) ∧
    (knobRelease s).moved = false ∧
    (knobRelease s).rawValue = s.rawValue ∧
    (knobRelease s).storeValue = s.storeValue :=
  ⟨rfl, rfl, rfl, rfl⟩

end Knob
